import Mathlib

/-!
Shallow embedding of the streaming diff-and-projection engine of
`osm-tag-csv-history` (`src/main.rs`), together with theorems settling the
frozen claims about its specification.

The embedding models the record stream as a `List OSMRec`, the CSV sink as a
`List (List String)` of rows of already-encoded fields, and fallible code
(`ensure!`, `unwrap()`, `unreachable!()`) as `Except String`.
-/

namespace OsmTagCsv

/-- OSM object kinds, ordered Node < Way < Relation exactly as the decoder's
`OSMObjectType` total order used by `sorted_objects` (main.rs:785-790). -/
inductive ObjType where
  | node
  | way
  | relation
deriving DecidableEq, Repr

/-- Numeric index realizing the Node < Way < Relation order. -/
def ObjType.idx : ObjType → Nat
  | .node => 0
  | .way => 1
  | .relation => 2

/-- Single-letter rendering of an object type (main.rs:686-691); this is also
what the decoder's debug formatting of the type prints in the `Id` column. -/
def ObjType.shortStr : ObjType → String
  | .node => "n"
  | .way => "w"
  | .relation => "r"

/-- Full-word rendering of an object type (main.rs:693-698). -/
def ObjType.longStr : ObjType → String
  | .node => "node"
  | .way => "way"
  | .relation => "relation"

/-- One entity-version record as consumed by the loop.  `version` is modelled
as required: the code unwraps it unconditionally (main.rs:528,652) and every
history record carries one.  The fields the code unwraps only when a column
needs them (`uid`, `username`, `changeset_id`, timestamp) stay `Option`; the
timestamp is carried as its two renderings produced by the external decoder
(`to_iso_string`, `to_epoch_number`).  Tag keys are unique per record (§3 of
the data model), so an association list with first-match lookup is faithful. -/
structure OSMRec where
  otype : ObjType
  id : Nat
  version : Nat
  uid : Option Nat
  username : Option String
  changeset_id : Option Nat
  timestamp_iso : Option String
  timestamp_epoch : Option Int
  tags : List (String × String)
deriving DecidableEq, Repr

/-- `OSMObjBase::tagged()`: the record carries at least one tag. -/
def OSMRec.tagged (r : OSMRec) : Bool :=
  !r.tags.isEmpty

/-- Lookup of a key in a record's tag mapping (`tags().collect::<map>` then
`get(key)` in main.rs:527,536). -/
def tagGet (tags : List (String × String)) (k : String) : Option String :=
  (tags.find? (fun p => p.1 == k)).map (fun p => p.2)

/-- `sorted_objects` (main.rs:785-790): the three-level composite order
object type, then id, then version. -/
def sorted_objects (a b : OSMRec) : Ordering :=
  (compare a.otype.idx b.otype.idx).then
    ((compare a.id b.id).then (compare a.version b.version))

/-- The `Column` enum (main.rs:42-64). -/
inductive Column where
  | Key
  | NewValue
  | OldValue
  | Value
  | Id
  | RawId
  | ObjectTypeShort
  | ObjectTypeLong
  | NewVersion
  | OldVersion
  | IsoDatetime
  | EpochDatetime
  | Username
  | Uid
  | ChangesetId
  | ChangesetTag (tag : String)
  | TagCountDelta
  | ValueCountDelta
deriving DecidableEq, Repr

/-- The `LineType` enum (main.rs:125-128). -/
inductive LineType where
  | OldNewValue
  | SeparateLines
deriving DecidableEq, Repr

/-- `encode_field`'s per-character action (main.rs:771-782): a literal tab
becomes backslash then `t`, a literal newline backslash then `n`, every other
character is copied unchanged. -/
def encodeChar (c : Char) : List Char :=
  if c = '\t' then ['\\', 't']
  else if c = '\n' then ['\\', 'n']
  else [c]

/-- `encode_field` on a character list: one linear pass of `encodeChar`. -/
def encodeChars (s : List Char) : List Char :=
  (s.map encodeChar).flatten

/-- `encode_field` (main.rs:768-783) at the string level. -/
def encode_field (s : String) : String :=
  ⟨encodeChars s.data⟩

/-- Modelled from the spec: decoding of the escaped row representation is
performed by downstream consumers and is not code under `src/`; §8 of the
spec describes it ("when decoded from its escaped row representation,
reconstructs byte-for-byte").  The inverse mapping of §4.5: backslash `t`
becomes a tab, backslash `n` a newline, everything else is copied. -/
def decodeChars : List Char → List Char
  | [] => []
  | [c] => [c]
  | c :: d :: rest =>
    if c = '\\' ∧ d = 't' then '\t' :: decodeChars rest
    else if c = '\\' ∧ d = 'n' then '\n' :: decodeChars rest
    else c :: decodeChars (d :: rest)

/-- Modelled from the spec: string-level decoding of the escaped field. -/
def decode_field (s : String) : String :=
  ⟨decodeChars s.data⟩

/-- Rust's `Vec::dedup`: remove consecutive repeated elements
(main.rs:542 `keys.dedup()`). -/
def dedupAdj : List String → List String
  | [] => []
  | [a] => [a]
  | a :: b :: rest =>
    if a = b then dedupAdj (b :: rest) else a :: dedupAdj (b :: rest)

/-- The candidate-key construction (main.rs:536-542): current keys, extended
with the previous side's keys, then `sort()` (lexicographic on the key
string, as Rust's `&str` order) and `dedup()`. -/
def unionKeys (curr_tags : List (String × String))
    (last_tags : Option (List (String × String))) : List String :=
  dedupAdj
    (List.insertionSort (· ≤ ·)
      (curr_tags.map Prod.fst ++
        (match last_tags with
         | some lt => lt.map Prod.fst
         | none => [])))

/-- The run configuration derived from the command line: the four filters
(main.rs:294-326), the line-layout choice (main.rs:336-340), the configured
column projection (main.rs:328-333), and the changeset tag store, modelled as
a pure lookup function (§6; `ChangesetTagLookup::tags`, main.rs:822-838). -/
structure Config where
  only_include_keys : List String
  only_include_tags : List (String × String)
  only_include_uids : Option (List Nat)
  only_include_types : Bool × Bool × Bool
  line_type : LineType
  columns : List Column
  lookup : Nat → Option (List (String × String))

/-- `passes_uid_check` (main.rs:493-500): filtering applies only when both
the record has a uid and a uid allow-list is configured. -/
def passes_uid_check (only_include_uids : Option (List Nat)) (curr : OSMRec) : Bool :=
  match curr.uid, only_include_uids with
  | some this_uid, some uids => uids.any (fun u => u == this_uid)
  | _, _ => true

/-- `passes_type_check` (main.rs:502-507). -/
def passes_type_check (only_include_types : Bool × Bool × Bool) (curr : OSMRec) : Bool :=
  match curr.otype, only_include_types with
  | .node, (n, _, _) => n
  | .way, (_, w, _) => w
  | .relation, (_, _, rl) => rl

/-- `has_tags` (main.rs:509-512): at least one side of the pair is tagged. -/
def hasTags (last : Option OSMRec) (curr : OSMRec) : Bool :=
  match last with
  | none => curr.tagged
  | some l => l.tagged || curr.tagged

/-- Lines 518-534: ordering assertion and comparability.  Returns the
previous side's tag mapping (`None` when not comparable) and the rendered
`last_version` string (empty when not comparable); `ensure!` failure is the
fatal "Non sorted input" error. -/
def pairContext (last : Option OSMRec) (curr : OSMRec) :
    Except String (Option (List (String × String)) × String) :=
  match last with
  | none => .ok (none, "")
  | some l =>
    if sorted_objects l curr = .lt then
      if l.otype = curr.otype ∧ l.id = curr.id then
        .ok (some l.tags, toString l.version)
      else
        .ok (none, "")
    else
      .error ("Non sorted input")

/-- Lines 554-560: the previous side's value for a key, defaulted to the
empty string, together with the `last_value_existed` presence flag. -/
def lastValueInfo (last_tags : Option (List (String × String))) (k : String) :
    String × Bool :=
  match last_tags.bind (fun lt => tagGet lt k) with
  | some v => (v, true)
  | none => ("", false)

/-- Lines 562-568: the current side's value for a key, defaulted to the
empty string, together with the `curr_value_exists` presence flag. -/
def currValueInfo (curr_tags : List (String × String)) (k : String) :
    String × Bool :=
  match tagGet curr_tags k with
  | some v => (v, true)
  | none => ("", false)

/-- The ambient context from which one output row's columns are resolved. -/
structure RenderCtx where
  curr : OSMRec
  last_version : String
  key : String
  last_value : String
  curr_value : String
  last_value_existed : Bool
  curr_value_exists : Bool
  i : Nat
  lookup : Nat → Option (List (String × String))

/-- Column resolution for one field of one row (main.rs:618-741).  The
`unwrap()` calls on fields absent from the record and the `unreachable!()`
arms are modelled as errors. -/
def renderColumn (ctx : RenderCtx) : Column → Except String String
  | .Key => .ok (encode_field ctx.key)
  | .NewValue => .ok (encode_field ctx.curr_value)
  | .OldValue => .ok (encode_field ctx.last_value)
  | .Value =>
    match ctx.i with
    | 0 => .ok (encode_field ctx.last_value)
    | 1 => .ok (encode_field ctx.curr_value)
    | _ => .error ("unreachable")
  | .Id => .ok (ctx.curr.otype.shortStr ++ toString ctx.curr.id)
  | .RawId => .ok (toString ctx.curr.id)
  | .NewVersion => .ok (toString ctx.curr.version)
  | .OldVersion => .ok ctx.last_version
  | .IsoDatetime =>
    match ctx.curr.timestamp_iso with
    | some s => .ok s
    | none => .error ("unwrap on None")
  | .EpochDatetime =>
    match ctx.curr.timestamp_epoch with
    | some e => .ok (toString e)
    | none => .error ("unwrap on None")
  | .Username =>
    match ctx.curr.username with
    | some u => .ok (encode_field u)
    | none => .error ("unwrap on None")
  | .Uid =>
    match ctx.curr.uid with
    | some u => .ok (toString u)
    | none => .error ("unwrap on None")
  | .ChangesetId =>
    match ctx.curr.changeset_id with
    | some c => .ok (toString c)
    | none => .error ("unwrap on None")
  | .ObjectTypeShort => .ok ctx.curr.otype.shortStr
  | .ObjectTypeLong => .ok ctx.curr.otype.longStr
  | .ChangesetTag t =>
    match ctx.curr.changeset_id with
    | none => .error ("unwrap on None")
    | some cid =>
      match ctx.lookup cid with
      | none => .ok ""
      | some tags_for_changeset =>
        match (tags_for_changeset.filterMap
            (fun p => if p.1 == t then some p.2 else none)).head? with
        | some v => .ok v
        | none => .ok ""
  | .TagCountDelta =>
    match ctx.last_value_existed, ctx.curr_value_exists with
    | false, false => .error ("unreachable")
    | false, true => .ok "+1"
    | true, false => .ok "-1"
    | true, true => .ok "0"
  | .ValueCountDelta =>
    match ctx.i with
    | 0 => .ok "-1"
    | 1 => .ok "+1"
    | _ => .error ("unreachable")

/-- The inner `loop` over `i` (main.rs:589-616), summarized as the list of
`i` values for which a row is emitted: under `OldNewValue` exactly `i = 0`;
under `SeparateLines`, `i = 0` (the removal row) only when
`last_value_existed` and `i = 1` (the addition row) only when
`curr_value_exists`. -/
def lineIndices (lt : LineType) (last_value_existed curr_value_exists : Bool) :
    List Nat :=
  match lt with
  | .OldNewValue => [0]
  | .SeparateLines =>
    (if last_value_existed then [0] else []) ++
      (if curr_value_exists then [1] else [])

/-- One output row: every configured column resolved in order
(main.rs:618-743). -/
def renderRow (ctx : RenderCtx) : List Column → Except String (List String)
  | [] => .ok []
  | c :: cs =>
    match renderColumn ctx c with
    | .error e => .error e
    | .ok f =>
      match renderRow ctx cs with
      | .error e => .error e
      | .ok rest => .ok (f :: rest)

/-- The rows emitted for the line indices of one changed tag. -/
def renderLines (cols : List Column) (ctxOf : Nat → RenderCtx) :
    List Nat → Except String (List (List String))
  | [] => .ok []
  | i :: is =>
    match renderRow (ctxOf i) cols with
    | .error e => .error e
    | .ok row =>
      match renderLines cols ctxOf is with
      | .error e => .error e
      | .ok rest => .ok (row :: rest)

/-- Processing of one candidate key (main.rs:549-748): the key filter, the
equal-value skip on the defaulted strings, the (key,value) tag filter, then
the line-layout expansion and row emission.  Returns the emitted rows
(`[]` when the key is skipped). -/
def processKey (cfg : Config) (curr : OSMRec)
    (last_tags : Option (List (String × String))) (last_version : String)
    (k : String) : Except String (List (List String)) :=
  if !cfg.only_include_keys.isEmpty &&
      !cfg.only_include_keys.any (fun x => x == k) then
    .ok []
  else
    let lv := lastValueInfo last_tags k
    let cv := currValueInfo curr.tags k
    if lv.1 = cv.1 then
      .ok []
    else if !cfg.only_include_tags.isEmpty &&
        !cfg.only_include_tags.any
          (fun p => p.1 == k && (p.2 == lv.1 || p.2 == cv.1)) then
      .ok []
    else
      renderLines cfg.columns
        (fun i => ⟨curr, last_version, k, lv.1, cv.1, lv.2, cv.2, i, cfg.lookup⟩)
        (lineIndices cfg.line_type lv.2 cv.2)

/-- Fold of `processKey` over the candidate keys, concatenating rows. -/
def processKeys (cfg : Config) (curr : OSMRec)
    (last_tags : Option (List (String × String))) (last_version : String) :
    List String → Except String (List (List String))
  | [] => .ok []
  | k :: ks =>
    match processKey cfg curr last_tags last_version k with
    | .error e => .error e
    | .ok rows =>
      match processKeys cfg curr last_tags last_version ks with
      | .error e => .error e
      | .ok rest => .ok (rows ++ rest)

/-- One iteration of the main loop for the pair `(last, curr)`
(main.rs:493-750): the record-level checks gate all processing (including
the ordering assertion inside `pairContext`); a skipped pair emits nothing. -/
def processPair (cfg : Config) (last : Option OSMRec) (curr : OSMRec) :
    Except String (List (List String)) :=
  if hasTags last curr && passes_uid_check cfg.only_include_uids curr &&
      passes_type_check cfg.only_include_types curr then
    match pairContext last curr with
    | .error e => .error e
    | .ok (last_tags, last_version) =>
      processKeys cfg curr last_tags last_version (unionKeys curr.tags last_tags)
  else
    .ok []

/-- The loop's mutable state: the retained previous record (main.rs:461) and
the rows written so far. -/
structure LoopState where
  last : Option OSMRec
  out : List (List String)

/-- One full loop iteration: process the pair, then advance
`last = Some(curr)` unconditionally (main.rs:752). -/
def loopStep (cfg : Config) (st : LoopState) (curr : OSMRec) :
    Except String LoopState :=
  match processPair cfg st.last curr with
  | .error e => .error e
  | .ok rows => .ok ⟨some curr, st.out ++ rows⟩

/-- The main loop (main.rs:473-759): iterate `loopStep` over the stream; on
a fatal error, the rows already written stay written, the error aborts the
rest of the run. -/
def runLoop (cfg : Config) : LoopState → List OSMRec →
    List (List String) × Option String
  | st, [] => (st.out, none)
  | st, c :: rest =>
    match loopStep cfg st c with
    | .error e => (st.out, some e)
    | .ok st' => runLoop cfg st' rest

/-- The whole run over a record stream.  On an empty stream the code panics:
`objects_iter.next().unwrap()` (main.rs:460) unwraps `None` before the loop
is ever entered, modelled as an error outcome with no rows. -/
def run (cfg : Config) (objs : List OSMRec) : List (List String) × Option String :=
  match objs with
  | [] => ([], some ("panicked: called unwrap on a None value"))
  | c :: rest => runLoop cfg ⟨none, []⟩ (c :: rest)

/-! Concrete fixtures used by counterexamples and witnesses. -/

/-- An empty changeset tag store (no changeset tag column is configured in
the fixture projections, so the store is never consulted). -/
def noLookup : Nat → Option (List (String × String)) := fun _ => none

/-- Fixture configuration: no filters, `OldNewValue` layout, single `key`
column. -/
def cfgKeyCol : Config :=
  ⟨[], [], none, (true, true, true), .OldNewValue, [.Key], noLookup⟩

/-- Fixture configuration: no filters, `SeparateLines` layout, columns
`value,value_count_delta`. -/
def cfgSepCols : Config :=
  ⟨[], [], none, (true, true, true), .SeparateLines,
    [.Value, .ValueCountDelta], noLookup⟩

/-- Fixture configuration: no filters, `OldNewValue` layout, columns
`key,old_value,old_version,tag_count_delta`. -/
def cfgInsCols : Config :=
  ⟨[], [], none, (true, true, true), .OldNewValue,
    [.Key, .OldValue, .OldVersion, .TagCountDelta], noLookup⟩

/-- Fixture configuration: a (key,value) allow-list, no other filters,
`OldNewValue` layout, single `key` column. -/
def cfgTagFilter (pairs : List (String × String)) : Config :=
  ⟨[], pairs, none, (true, true, true), .OldNewValue, [.Key], noLookup⟩

/-- Fixture configuration: uid allow-list `[999]`, single `key` column. -/
def cfgUidFilter : Config :=
  ⟨[], [], some [999], (true, true, true), .OldNewValue, [.Key], noLookup⟩

/-- A record fixture with all optional decoder fields present. -/
def mkRec (t : ObjType) (i v : Nat) (tags : List (String × String)) : OSMRec :=
  ⟨t, i, v, some 1, some "alice", some 7, some "2020-01-01T00:00:00Z",
    some 1577836800, tags⟩

/-! Helper lemmas. -/

theorem encodeChars_cons (c : Char) (cs : List Char) :
    encodeChars (c :: cs) = encodeChar c ++ encodeChars cs := by
  simp [encodeChars]

theorem decodeChars_cons_ne (c : Char) (h : c ≠ '\\') (l : List Char) :
    decodeChars (c :: l) = c :: decodeChars l := by
  cases l with
  | nil => rfl
  | cons d rest =>
    rw [decodeChars]
    rw [if_neg (fun hh => h hh.1), if_neg (fun hh => h hh.1)]

theorem decodeChars_encodeChars (cs : List Char) (h : ∀ c ∈ cs, c ≠ '\\') :
    decodeChars (encodeChars cs) = cs := by
  induction cs with
  | nil => rfl
  | cons c cs ih =>
    have hc : c ≠ '\\' := h c (List.mem_cons_self c cs)
    have hrest := ih (fun x hx => h x (List.mem_cons_of_mem c hx))
    rw [encodeChars_cons]
    by_cases ht : c = '\t'
    · subst ht
      show decodeChars ('\\' :: 't' :: encodeChars cs) = '\t' :: cs
      rw [decodeChars, if_pos ⟨rfl, rfl⟩, hrest]
    · by_cases hn : c = '\n'
      · subst hn
        show decodeChars ('\\' :: 'n' :: encodeChars cs) = '\n' :: cs
        rw [decodeChars]
        rw [if_neg (fun hh => by exact absurd hh.2 (by decide)), if_pos ⟨rfl, rfl⟩,
          hrest]
      · have : encodeChar c = [c] := by rw [encodeChar, if_neg ht, if_neg hn]
        rw [this]
        show decodeChars (c :: encodeChars cs) = c :: cs
        rw [decodeChars_cons_ne c hc, hrest]

theorem mem_dedupAdj : ∀ (l : List String) (a : String),
    a ∈ dedupAdj l ↔ a ∈ l
  | [], a => Iff.rfl
  | [b], a => Iff.rfl
  | b :: c :: rest, a => by
    by_cases hbc : b = c
    · rw [dedupAdj, if_pos hbc, mem_dedupAdj (c :: rest) a]
      subst hbc
      simp [List.mem_cons]
    · rw [dedupAdj, if_neg hbc]
      simp [List.mem_cons, mem_dedupAdj (c :: rest) a]

theorem sorted_dedupAdj : ∀ l : List String,
    l.Sorted (· ≤ ·) → (dedupAdj l).Sorted (· < ·)
  | [], _ => List.sorted_nil
  | [a], _ => List.sorted_singleton a
  | a :: b :: rest, h => by
    obtain ⟨hab, htail⟩ := List.sorted_cons.mp h
    by_cases heq : a = b
    · rw [dedupAdj, if_pos heq]
      exact sorted_dedupAdj _ htail
    · rw [dedupAdj, if_neg heq]
      rw [List.sorted_cons]
      refine ⟨?_, sorted_dedupAdj _ htail⟩
      intro y hy
      have hyb : y ∈ b :: rest := (mem_dedupAdj _ _).mp hy
      have hby : b ≤ y := by
        rcases List.mem_cons.mp hyb with hyb | hyb
        · rw [hyb]
        · exact (List.sorted_cons.mp htail).1 y hyb
      exact lt_of_lt_of_le
        (lt_of_le_of_ne (hab b (List.mem_cons_self b rest)) heq) hby

theorem lastValueInfo_absent (last_tags : Option (List (String × String)))
    (k : String) (h : (lastValueInfo last_tags k).2 = false) :
    (lastValueInfo last_tags k).1 = "" := by
  unfold lastValueInfo at h ⊢
  cases hm : last_tags.bind (fun lt => tagGet lt k) with
  | none => rfl
  | some v => rw [hm] at h; simp at h

theorem currValueInfo_absent (curr_tags : List (String × String))
    (k : String) (h : (currValueInfo curr_tags k).2 = false) :
    (currValueInfo curr_tags k).1 = "" := by
  unfold currValueInfo at h ⊢
  cases hm : tagGet curr_tags k with
  | none => rfl
  | some v => rw [hm] at h; simp at h

theorem encode_field_empty : encode_field "" = "" := rfl

/-! Claim theorems. -/

/-- Claim C1, counterexample: on a comparable, processed pair where the tag
`a` appears (absent before, present after) with the literal empty-string
value, the engine emits no row at all — the skip compares the defaulted
strings, so an appearance of the empty string is treated as unchanged,
contradicting the claim that presence is tracked separately from
emptiness. -/
theorem c1_empty_value_counterexample :
    tagGet (mkRec .node 1 1 []).tags "a" = none ∧
    tagGet (mkRec .node 1 2 [("a", "")]).tags "a" = some "" ∧
    processPair cfgKeyCol (some (mkRec .node 1 1 []))
      (mkRec .node 1 2 [("a", "")]) = .ok [] :=
  ⟨rfl, rfl, rfl⟩

/-- Claim C1, amended: with no key or tag filters configured, the diff
engine skips a key if and only if its old value and new value are equal
after an absent value is defaulted to the empty string.  A tag that appears
or disappears with a non-empty value is therefore reported, but one that
appears or disappears carrying the literal empty-string value is skipped as
unchanged: presence flags are tracked alongside the values but do not enter
the skip decision. -/
theorem c1_skip_iff_equal_defaulted (curr : OSMRec)
    (last_tags : Option (List (String × String))) (last_version k : String) :
    processKey cfgKeyCol curr last_tags last_version k = .ok [] ↔
      (lastValueInfo last_tags k).1 = (currValueInfo curr.tags k).1 := by
  unfold processKey
  by_cases heq : (lastValueInfo last_tags k).1 = (currValueInfo curr.tags k).1
  · simp [cfgKeyCol, heq]
  · simp [cfgKeyCol, heq, lineIndices, renderLines, renderRow, renderColumn]

/-- Claim C2, counterexample: an adjacent pair that violates the
`(kind, id, version)` ordering but on which neither record is tagged is not
validated at all — the run completes with no error and no rows, instead of
aborting with an "unsorted input" error as the claim requires for every
adjacent pair. -/
theorem c2_unsorted_untagged_counterexample :
    sorted_objects (mkRec .node 1 2 []) (mkRec .node 1 1 []) ≠ .lt ∧
    run cfgKeyCol [mkRec .node 1 2 [], mkRec .node 1 1 []] = ([], none) :=
  ⟨by decide, rfl⟩

/-- Claim C2, amended: the ordering is validated only on adjacent pairs that
are selected for processing — at least one of the two records tagged and the
current record passing the uid and object-type filters.  On such a pair, a
violation of the strict `(kind, id, version)` order aborts the whole run
with the "Non sorted input" error, and no row of that pair or of any later
record is emitted. -/
theorem c2_sort_check_on_processed_pairs (cfg : Config) (st : LoopState)
    (l curr : OSMRec) (rest : List OSMRec)
    (hlast : st.last = some l)
    (htag : (l.tagged || curr.tagged) = true)
    (huid : passes_uid_check cfg.only_include_uids curr = true)
    (htype : passes_type_check cfg.only_include_types curr = true)
    (hsort : sorted_objects l curr ≠ .lt) :
    runLoop cfg st (curr :: rest) = (st.out, some ("Non sorted input")) := by
  have hpp : processPair cfg st.last curr = .error ("Non sorted input") := by
    rw [hlast]
    unfold processPair hasTags pairContext
    simp [htag, huid, htype, hsort]
  unfold runLoop loopStep
  rw [hpp]

/-- Claim C2, witness: a tagged, unfiltered out-of-order pair does abort
with "Non sorted input" and emits nothing past the retained state. -/
theorem c2_sort_check_on_processed_pairs_witness :
    runLoop cfgKeyCol ⟨some (mkRec .node 1 2 [("a", "x")]), []⟩
      [mkRec .node 1 1 [("a", "y")]] = ([], some ("Non sorted input")) :=
  c2_sort_check_on_processed_pairs cfgKeyCol
    ⟨some (mkRec .node 1 2 [("a", "x")]), []⟩
    (mkRec .node 1 2 [("a", "x")]) (mkRec .node 1 1 [("a", "y")]) []
    rfl rfl rfl rfl (by decide)

/-- Claim C3: the code does not treat an empty record stream as a legal
no-op.  The first record is pulled with `objects_iter.next().unwrap()`
(main.rs:460) before the loop is entered, so an empty stream panics instead
of terminating successfully; the run fails for every configuration. -/
theorem c3_empty_stream_panics (cfg : Config) :
    run cfg [] = ([], some ("panicked: called unwrap on a None value")) :=
  rfl

/-- Claim C4, counterexample: the field encoding is not injective, hence
does not round-trip on every input string.  The two-character input
backslash-`t` is copied unchanged (neither character is a tab or newline)
and therefore collides with the encoding of a literal tab. -/
theorem c4_encode_not_injective :
    encode_field "\t" = encode_field "\\t" ∧ "\t" ≠ "\\t" := by
  constructor
  · rfl
  · decide

/-- Claim C4, amended: restricted to input strings containing no backslash
character, the encoding — each literal tab rendered as backslash `t`, each
literal newline as backslash `n`, every other character copied unchanged —
round-trips: decoding the escaped representation reconstructs the original
value byte-for-byte (and the encoding is therefore injective on such
strings).  On strings containing a backslash the encoding is not injective. -/
theorem c4_roundtrip_no_backslash (s : String)
    (h : ∀ c ∈ s.data, c ≠ '\\') :
    decode_field (encode_field s) = s := by
  cases s with
  | mk data =>
    show String.mk (decodeChars (encodeChars data)) = String.mk data
    rw [decodeChars_encodeChars data h]

/-- Claim C4, witness: a value with an embedded tab and newline decodes
from its escaped representation back to the original. -/
theorem c4_roundtrip_no_backslash_witness :
    (∀ c ∈ ("a\tb\nc" : String).data, c ≠ '\\') ∧
    decode_field (encode_field "a\tb\nc") = "a\tb\nc" :=
  ⟨by decide, c4_roundtrip_no_backslash "a\tb\nc" (by decide)⟩

/-- Claim C5: under the `SeparateLines` layout a changed tag expands to a
removal row (`ValueCountDelta` `-1`, carrying the old value) exactly when
the old value existed, followed by an addition row (`+1`, carrying the new
value) exactly when the new value exists — so a value change yields two
rows and a pure insertion or deletion yields one.  Stated over the
`value,value_count_delta` projection. -/
theorem c5_separate_lines_rows (curr : OSMRec)
    (last_tags : Option (List (String × String))) (last_version k : String)
    (lval cval : String) (lex cex : Bool)
    (h1 : lastValueInfo last_tags k = (lval, lex))
    (h2 : currValueInfo curr.tags k = (cval, cex))
    (h3 : lval ≠ cval) :
    processKey cfgSepCols curr last_tags last_version k =
      .ok ((if lex then [[encode_field lval, "-1"]] else []) ++
        (if cex then [[encode_field cval, "+1"]] else [])) := by
  unfold processKey
  simp only [h1, h2, cfgSepCols]
  cases lex <;> cases cex <;>
    simp [h3, lineIndices, renderLines, renderRow, renderColumn]

/-- Claim C5, witness: a value change from "yes" to "no" yields exactly the
removal row and the addition row; the claim's spec example. -/
theorem c5_separate_lines_rows_witness :
    processKey cfgSepCols (mkRec .node 1 2 [("a", "no")])
      (some [("a", "yes")]) "1" "a" = .ok [["yes", "-1"], ["no", "+1"]] := by
  simpa using c5_separate_lines_rows (mkRec .node 1 2 [("a", "no")])
    (some [("a", "yes")]) "1" "a" "yes" "no" true true rfl rfl (by decide)

/-- Claim C6: the `TagCountDelta` column renders "+1" when the tag was
absent before and present after, "-1" when present before and absent after,
and "0" when present on both sides; and the both-absent case cannot reach
the column, because two absent sides both default to the empty string and
are therefore equal, which makes the diff engine skip the key. -/
theorem c6_tag_count_delta :
    (∀ ctx : RenderCtx,
      (ctx.last_value_existed = false → ctx.curr_value_exists = true →
        renderColumn ctx .TagCountDelta = .ok "+1") ∧
      (ctx.last_value_existed = true → ctx.curr_value_exists = false →
        renderColumn ctx .TagCountDelta = .ok "-1") ∧
      (ctx.last_value_existed = true → ctx.curr_value_exists = true →
        renderColumn ctx .TagCountDelta = .ok "0")) ∧
    (∀ (last_tags : Option (List (String × String)))
      (curr_tags : List (String × String)) (k : String),
      (lastValueInfo last_tags k).2 = false →
      (currValueInfo curr_tags k).2 = false →
      (lastValueInfo last_tags k).1 = (currValueInfo curr_tags k).1) := by
  constructor
  · intro ctx
    refine ⟨fun h1 h2 => ?_, fun h1 h2 => ?_, fun h1 h2 => ?_⟩ <;>
      simp [renderColumn, h1, h2]
  · intro lt ct k h1 h2
    rw [lastValueInfo_absent lt k h1, currValueInfo_absent ct k h2]

/-- A render context for a tag that appeared (absent before, present now). -/
def ctxAppear : RenderCtx :=
  ⟨mkRec .node 1 1 [("a", "x")], "", "a", "", "x", false, true, 0, noLookup⟩

/-- Claim C6, witness: an appearing tag renders `TagCountDelta` as "+1". -/
theorem c6_tag_count_delta_witness :
    renderColumn ctxAppear .TagCountDelta = .ok "+1" :=
  (c6_tag_count_delta.1 ctxAppear).1 rfl rfl

/-- Claim C7: with a non-empty (key,value) allow-list and no other tag
filters, a detected change (old and new defaulted values differ) is emitted
if and only if some configured pair matches the key and either side's
value; stated over the single `key` column projection, where emission
produces exactly the one row `[key]`. -/
theorem c7_tag_filter_iff (pairs : List (String × String)) (curr : OSMRec)
    (last_tags : Option (List (String × String))) (last_version k : String)
    (hne : pairs ≠ [])
    (hchange : (lastValueInfo last_tags k).1 ≠ (currValueInfo curr.tags k).1) :
    processKey (cfgTagFilter pairs) curr last_tags last_version k =
      .ok (if pairs.any (fun p => p.1 == k &&
            (p.2 == (lastValueInfo last_tags k).1 ||
              p.2 == (currValueInfo curr.tags k).1)) = true
        then [[encode_field k]] else []) := by
  unfold processKey
  simp only [cfgTagFilter]
  by_cases hany : pairs.any (fun p => p.1 == k &&
      (p.2 == (lastValueInfo last_tags k).1 ||
        p.2 == (currValueInfo curr.tags k).1)) = true
  · simp [hchange, hne, hany, lineIndices, renderLines, renderRow, renderColumn]
  · simp [hchange, hne, hany]

/-- Claim C7, witness: the filter ("highway","primary") matches a change of
highway from "primary" to "secondary" (the old side matches), emitting the
row. -/
theorem c7_tag_filter_iff_witness :
    processKey (cfgTagFilter [("highway", "primary")])
      (mkRec .way 1 2 [("highway", "secondary")])
      (some [("highway", "primary")]) "1" "highway" = .ok [["highway"]] := by
  simpa using c7_tag_filter_iff [("highway", "primary")]
    (mkRec .way 1 2 [("highway", "secondary")])
    (some [("highway", "primary")]) "1" "highway" (by decide) (by decide)

/-- Claim C8, counterexample: at an entity boundary (different ids) a tag on
the current record whose value is the literal empty string is not reported
as a pure insertion — it is skipped entirely, because the absent old value
defaults to the empty string and compares equal to it. -/
theorem c8_empty_value_insertion_counterexample :
    (mkRec .node 1 1 [("a", "1")]).id ≠ (mkRec .node 2 1 [("a", "")]).id ∧
    tagGet (mkRec .node 2 1 [("a", "")]).tags "a" = some "" ∧
    processPair cfgKeyCol (some (mkRec .node 1 1 [("a", "1")]))
      (mkRec .node 2 1 [("a", "")]) = .ok [] :=
  ⟨by decide, rfl, rfl⟩

/-- Claim C8, amended: for a processed adjacent pair that does not share
both kind and id, the previous side's tag mapping is taken to be empty and
`old_version` renders as the empty string; every tag on the current record
carrying a non-empty value is then reported as a pure insertion (old value
absent and rendered empty, `TagCountDelta` "+1"), never as unchanged; a tag
carrying the literal empty-string value is skipped instead.  Stated over
the `key,old_value,old_version,tag_count_delta` projection. -/
theorem c8_boundary_insertion (l curr : OSMRec) (k v : String)
    (hne : l.otype ≠ curr.otype ∨ l.id ≠ curr.id)
    (hsort : sorted_objects l curr = .lt)
    (hget : tagGet curr.tags k = some v)
    (hv : v ≠ "") :
    pairContext (some l) curr = .ok (none, "") ∧
    processKey cfgInsCols curr none "" k =
      .ok [[encode_field k, "", "", "+1"]] := by
  constructor
  · show (if sorted_objects l curr = Ordering.lt then
        if l.otype = curr.otype ∧ l.id = curr.id then
          Except.ok (some l.tags, toString l.version)
        else Except.ok (none, "")
      else Except.error ("Non sorted input")) = Except.ok (none, "")
    rw [if_pos hsort, if_neg]
    intro hc
    rcases hne with hne | hne
    · exact hne hc.1
    · exact hne hc.2
  · unfold processKey
    have hlv : lastValueInfo none k = ("", false) := rfl
    have hcv : currValueInfo curr.tags k = (v, true) := by
      unfold currValueInfo
      rw [hget]
    simp only [hlv, hcv, cfgInsCols]
    simp [Ne.symm hv, lineIndices, renderLines, renderRow, renderColumn,
      encode_field_empty]

/-- Claim C8, witness: the spec's boundary example — `(Node,1,v1,{a:"1"})`
then `(Node,2,v1,{a:"1"})` — reports tag `a` of the second record as a pure
insertion with empty `old_value` and `old_version`. -/
theorem c8_boundary_insertion_witness :
    pairContext (some (mkRec .node 1 1 [("a", "1")]))
      (mkRec .node 2 1 [("a", "1")]) = .ok (none, "") ∧
    processKey cfgInsCols (mkRec .node 2 1 [("a", "1")]) none "" "a" =
      .ok [["a", "", "", "+1"]] := by
  simpa using c8_boundary_insertion (mkRec .node 1 1 [("a", "1")])
    (mkRec .node 2 1 [("a", "1")]) "a" "1" (Or.inr (by decide)) (by decide)
    rfl (by decide)

/-- Claim C9: the candidate keys of a pair are exactly the union of the keys
present on either side, listed in strictly increasing lexicographic string
order — hence deterministic and reproducible: sortedness under `<` also
gives uniqueness, and the order is a function of the two tag mappings
alone. -/
theorem c9_union_keys_sorted (curr_tags : List (String × String))
    (last_tags : Option (List (String × String))) :
    (unionKeys curr_tags last_tags).Sorted (· < ·) ∧
    ∀ k : String, (k ∈ unionKeys curr_tags last_tags ↔
      (k ∈ curr_tags.map Prod.fst ∨
        k ∈ (match last_tags with
          | some lt => lt.map Prod.fst
          | none => ([] : List String)))) := by
  constructor
  · exact sorted_dedupAdj _ (List.sorted_insertionSort (· ≤ ·) _)
  · intro k
    simp [unionKeys, mem_dedupAdj]

/-- Claim C10: one loop iteration, whenever it completes without a fatal
error, always retains the record just consumed as the new previous record —
regardless of the uid filter, the object-type filter, or both records being
untagged, since `last = Some(curr)` runs unconditionally at the bottom of
the loop body. -/
theorem c10_advance_unconditional (cfg : Config) (st : LoopState)
    (curr : OSMRec) (st' : LoopState)
    (h : loopStep cfg st curr = .ok st') :
    st'.last = some curr := by
  unfold loopStep at h
  cases hp : processPair cfg st.last curr with
  | error e =>
    rw [hp] at h
    exact absurd h (by simp)
  | ok rows =>
    rw [hp] at h
    injection h with h2
    rw [← h2]

/-- Claim C10, witness: a tagged record rejected by the uid allow-list
still becomes the retained previous record of the next comparison. -/
theorem c10_advance_unconditional_witness :
    (LoopState.mk (some (mkRec .node 1 1 [("a", "x")])) []).last =
      some (mkRec .node 1 1 [("a", "x")]) :=
  c10_advance_unconditional cfgUidFilter ⟨none, []⟩
    (mkRec .node 1 1 [("a", "x")])
    ⟨some (mkRec .node 1 1 [("a", "x")]), []⟩ rfl

end OsmTagCsv
